import Mathlib

/-!
Shallow embedding of `vacances_scolaires_france/__init__.py`
(class `SchoolHolidayDates`): loading of the holiday CSV rows into a
date-keyed index, and the validated query operations over it.
Python dicts keyed by `datetime.date` are modelled as association lists
with in-place replacement on duplicate keys; exceptions are modelled by
`Except`; the scalar-or-sequence arguments of `check_date` / `is_holiday`
are modelled by tagged unions.
-/

namespace VacancesScolaires

/-- A calendar date as in `datetime.date`: year, month, day, no time zone. -/
structure Date where
  year : Int
  month : Nat
  day : Nat
deriving DecidableEq

/-- Python orders `datetime.date` lexicographically on (year, month, day). -/
def dateLt (a b : Date) : Bool :=
  decide (a.year < b.year ∨ (a.year = b.year ∧
    (a.month < b.month ∨ (a.month = b.month ∧ a.day < b.day))))

/-- Non-strict date order, `a <= b` in Python. -/
def dateLe (a b : Date) : Bool := dateLt a b || decide (a = b)

/-- One raw CSV row as `csv.DictReader` yields it, with the `date` field
already parsed by `datetime.datetime.strptime(row["date"], "%Y-%m-%d")`
(line 62); the three zone fields are still the raw strings from the file. -/
structure RawRow where
  date : Date
  nom_vacances : String
  vacances_zone_a : String
  vacances_zone_b : String
  vacances_zone_c : String
deriving DecidableEq

/-- A stored record after `load_data` replaced each zone field by
`row[zone_key] == "True"` (line 69). -/
structure Row where
  date : Date
  nom_vacances : String
  vacances_zone_a : Bool
  vacances_zone_b : Bool
  vacances_zone_c : Bool
deriving DecidableEq

/-- The exception kinds the module can raise: the three bespoke exception
classes, Python `ValueError` (used both for the load-time integrity check
and for a wrongly typed date argument), and Python `KeyError` for a dict
access miss. -/
inductive HolidayError where
  | unsupportedYear (msg : String)
  | unsupportedZone (msg : String)
  | unsupportedHoliday (msg : String)
  | valueError (msg : String)
  | keyError (msg : String)
deriving DecidableEq

/-- `SchoolHolidayDates.SUPPORTED_ZONES` (line 22). -/
def SUPPORTED_ZONES : List String := ["A", "B", "C"]

/-- `SchoolHolidayDates.SUPPORTED_HOLIDAY_NAMES` (lines 23-30). -/
def SUPPORTED_HOLIDAY_NAMES : List String :=
  ["Vacances de Noël", "Vacances d\x27hiver", "Vacances de printemps",
   "Vacances d\x27été", "Vacances de la Toussaint", "Pont de l\x27Ascension"]

/-- `zone_key` (lines 77-88): raises `UnsupportedZoneException` for a zone
outside `SUPPORTED_ZONES` (case-sensitive list membership, line 86), else
returns `"vacances_zone_" + zone.lower()`. -/
def zone_key (zone : String) : Except HolidayError String :=
  if zone ∈ SUPPORTED_ZONES then .ok ("vacances_zone_" ++ zone.toLower)
  else .error (.unsupportedZone ("Unsupported zone: " ++ zone))

/-- Dict access `row[key]` restricted to the zone-flag fields of a stored
record; `none` models a `KeyError`. -/
def Row.zoneField (r : Row) (key : String) : Option Bool :=
  if key = "vacances_zone_a" then some r.vacances_zone_a
  else if key = "vacances_zone_b" then some r.vacances_zone_b
  else if key = "vacances_zone_c" then some r.vacances_zone_c
  else none

/-- The in-place conversion loop of `load_data` (lines 66-70):
`row[zone_key] = row[zone_key] == "True"` for each supported zone. -/
def parseRow (r : RawRow) : Row :=
  { date := r.date
    nom_vacances := r.nom_vacances
    vacances_zone_a := r.vacances_zone_a == "True"
    vacances_zone_b := r.vacances_zone_b == "True"
    vacances_zone_c := r.vacances_zone_c == "True" }

/-- `is_holiday` accumulator of `load_data` (lines 66-70): the OR of the
three converted zone flags of a record. -/
def rowIsHoliday (v : Row) : Bool :=
  v.vacances_zone_a || v.vacances_zone_b || v.vacances_zone_c

/-- The OR of the zone flags of a raw row, after conversion. -/
def rawIsHoliday (r : RawRow) : Bool := rowIsHoliday (parseRow r)

/-- Lookup in the date-keyed index (`self.data[d]` / `d in self.data`). -/
def lookupDate : List (Date × Row) → Date → Option Row
  | [], _ => none
  | p :: ps, k => if p.1 = k then some p.2 else lookupDate ps k

/-- Dict assignment `self.data[date] = row` (line 75): replace the entry in
place when the key is present, else append. -/
def dictInsert : List (Date × Row) → Date → Row → List (Date × Row)
  | [], k, v => [(k, v)]
  | p :: ps, k, v => if p.1 = k then (k, v) :: ps else p :: dictInsert ps k v

/-- Zero-padded decimal rendering, for `str(date)`. -/
def padNat (w n : Nat) : String :=
  let s := toString n
  String.mk (List.replicate (w - s.length) '0') ++ s

/-- Python `str(date)`, ISO `YYYY-MM-DD` form. -/
def dateStr (d : Date) : String :=
  padNat 4 d.year.toNat ++ "-" ++ padNat 2 d.month ++ "-" ++ padNat 2 d.day

/-- The row loop of `load_data` (lines 61-75) over already-parsed rows,
threading the `self.data` dict: a row whose zone flags OR to false is
discarded; a row with a true flag and empty `nom_vacances` raises
`ValueError` (lines 73-74); otherwise the row is stored under its date. -/
def load_data : List RawRow → List (Date × Row) → Except HolidayError (List (Date × Row))
  | [], acc => .ok acc
  | r :: rs, acc =>
    let row := parseRow r
    if rowIsHoliday row then
      if row.nom_vacances.length = 0 then
        .error (.valueError ("Holiday name not set for date: " ++ dateStr row.date))
      else load_data rs (dictInsert acc row.date row)
    else load_data rs acc

/-- The state of a constructed `SchoolHolidayDates` object: the index and
the two derived year bounds (lines 42-45). -/
structure Calendar where
  data : List (Date × Row)
  min_year : Int
  max_year : Int
deriving DecidableEq

/-- Python `min` over an iterable of dates (first minimum wins);
`none` models the `ValueError` that `min` raises on an empty sequence. -/
def minKey : List Date → Option Date
  | [] => none
  | d :: ds => some (ds.foldl (fun acc x => if dateLt x acc then x else acc) d)

/-- Python `max` over an iterable of dates (first maximum wins). -/
def maxKey : List Date → Option Date
  | [] => none
  | d :: ds => some (ds.foldl (fun acc x => if dateLt acc x then x else acc) d)

/-- `SchoolHolidayDates.__init__` (lines 34-45): run `load_data` from an
empty dict, then derive `min_year` / `max_year` as the years of the
minimal and maximal index keys. An empty index makes `min()` raise. -/
def mkCalendar (rows : List RawRow) : Except HolidayError Calendar := do
  let data ← load_data rows []
  match minKey (data.map Prod.fst), maxKey (data.map Prod.fst) with
  | some mn, some mx => .ok ⟨data, mn.year, mx.year⟩
  | _, _ => .error (.valueError "min() arg is an empty sequence")

/-- `check_name` (lines 90-100). -/
def check_name (name : String) : Except HolidayError Unit :=
  if name ∈ SUPPORTED_HOLIDAY_NAMES then .ok ()
  else .error (.unsupportedHoliday ("Unknown holiday name: " ++ name))

/-- A scalar argument of `check_date`: either an actual `datetime.date`
value or a value of any other (non-list) type. -/
inductive DateInput where
  | date (d : Date)
  | other
deriving DecidableEq

/-- The `ValueError` message of `check_date` (line 117). -/
def dateTypeMsg : String :=
  "date should be a datetime.date, a list of datetime.date, or a pandas Series of datetime.date"

/-- Scalar branch of `check_date` (lines 115-119): `ValueError` on a
non-date value, `UnsupportedYearException` on a year outside
`[min_year, max_year]`. -/
def check_date_one (c : Calendar) : DateInput → Except HolidayError Unit
  | .other => .error (.valueError dateTypeMsg)
  | .date d =>
    if d.year < c.min_year ∨ d.year > c.max_year then
      .error (.unsupportedYear ("No data for year: " ++ toString d.year))
    else .ok ()

/-- Sequence branch of `check_date` (lines 112-114): recursive check of
every element in order, stopping at the first failure. -/
def check_date_list (c : Calendar) : List DateInput → Except HolidayError Unit
  | [] => .ok ()
  | d :: ds => do
    check_date_one c d
    check_date_list c ds

/-- The scalar-or-sequence argument shape handled by `isinstance` dispatch
in `check_date` / `is_holiday` (lists and pandas Series behave alike). -/
inductive DatesInput where
  | single (d : DateInput)
  | list (ds : List DateInput)
deriving DecidableEq

/-- The scalar-or-sequence result shape of `is_holiday`. -/
inductive BoolResult where
  | single (b : Bool)
  | list (bs : List Bool)
deriving DecidableEq

/-- `check_date` (lines 102-119). -/
def check_date (c : Calendar) : DatesInput → Except HolidayError Unit
  | .single d => check_date_one c d
  | .list ds => check_date_list c ds

/-- Membership test `d in self.data` applied to one element (a non-date
value is never a key of the index, so it tests false). -/
def holidayOf (c : Calendar) : DateInput → Bool
  | .date d => (lookupDate c.data d).isSome
  | .other => false

/-- `is_holiday` (lines 121-134): validate via `check_date`, then index
membership, elementwise for a sequence. -/
def is_holiday (c : Calendar) (input : DatesInput) : Except HolidayError BoolResult := do
  check_date c input
  match input with
  | .single d => pure (.single (holidayOf c d))
  | .list ds => pure (.list (ds.map (holidayOf c)))

/-- Scalar branch of `is_holiday_for_zone` (lines 146, 155-158): validate
the date; return `False` when the date is absent from the index; otherwise
fetch `self.data[date][self.zone_key(zone)]` — only this branch touches
`zone_key`. -/
def is_holiday_for_zone (c : Calendar) (d : Date) (zone : String) :
    Except HolidayError Bool := do
  check_date_one c (.date d)
  match lookupDate c.data d with
  | none => pure false
  | some row =>
    match zone_key zone with
    | .error e => .error e
    | .ok key =>
      match row.zoneField key with
      | some b => pure b
      | none => .error (.keyError key)

/-- `holidays_for_year` (lines 160-171). -/
def holidays_for_year (c : Calendar) (year : Int) :
    Except HolidayError (List (Date × Row)) :=
  if year < c.min_year ∨ year > c.max_year then
    .error (.unsupportedYear ("No data for year: " ++ toString year))
  else .ok (c.data.filter fun p => p.1.year == year)

/-- `holiday_for_year_by_name` (lines 173-189). -/
def holiday_for_year_by_name (c : Calendar) (year : Int) (name : String) :
    Except HolidayError (List (Date × Row)) := do
  check_name name
  let h ← holidays_for_year c year
  pure (h.filter fun p => p.2.nom_vacances == name)

/-- The dict comprehension of `holidays_for_year_and_zone` (lines 201-205):
keep the entries whose `is_holiday_for_zone` test returns true, the test
being evaluated per entry in order, with its exceptions propagating. -/
def filterZone (c : Calendar) (zone : String) :
    List (Date × Row) → Except HolidayError (List (Date × Row))
  | [] => pure []
  | p :: ps => do
    let b ← is_holiday_for_zone c p.1 zone
    let rest ← filterZone c zone ps
    if b then pure (p :: rest) else pure rest

/-- `holidays_for_year_and_zone` (lines 191-205). -/
def holidays_for_year_and_zone (c : Calendar) (year : Int) (zone : String) :
    Except HolidayError (List (Date × Row)) := do
  let h ← holidays_for_year c year
  filterZone c zone h

/-- `holidays_between` (lines 226-238): validate both bounds, then keep the
entries with `start_date <= k <= end_date`. -/
def holidays_between (c : Calendar) (s e : Date) :
    Except HolidayError (List (Date × Row)) := do
  check_date_one c (.date s)
  check_date_one c (.date e)
  pure (c.data.filter fun p => dateLe s p.1 && dateLe p.1 e)

/-- Concrete input rows used by the witnesses: holidays in 2022 and 2024,
nothing in 2023. -/
def sampleRows : List RawRow :=
  [⟨⟨2022, 12, 23⟩, "Vacances de Noël", "True", "True", "True"⟩,
   ⟨⟨2024, 2, 10⟩, "Vacances d\x27hiver", "True", "False", "False"⟩]

/-- The calendar obtained from `sampleRows`. -/
def sampleCal : Calendar :=
  { data := [(⟨2022, 12, 23⟩, ⟨⟨2022, 12, 23⟩, "Vacances de Noël", true, true, true⟩),
             (⟨2024, 2, 10⟩, ⟨⟨2024, 2, 10⟩, "Vacances d\x27hiver", true, false, false⟩)]
    min_year := 2022
    max_year := 2024 }

theorem mkCalendar_sample : mkCalendar sampleRows = .ok sampleCal := rfl

/-- Lookup after a dict assignment: the assigned key reads back the new
value, every other key is untouched. -/
theorem lookupDate_dictInsert (l : List (Date × Row)) (k : Date) (v : Row) (x : Date) :
    lookupDate (dictInsert l k v) x = if k = x then some v else lookupDate l x := by
  induction l with
  | nil => simp [dictInsert, lookupDate]
  | cons p ps ih =>
    by_cases hpk : p.1 = k
    · by_cases hkx : k = x <;> simp [dictInsert, lookupDate, hpk, hkx]
    · by_cases hpx : p.1 = x
      · have hkx : ¬ k = x := fun h => hpk (h ▸ hpx)
        have hxk : ¬ x = k := fun h => hkx h.symm
        simp [dictInsert, lookupDate, hpk, hpx, hkx, hxk]
      · simp [dictInsert, lookupDate, hpk, hpx, ih]

/-- A key of the dict after an assignment is the assigned key or an old key. -/
theorem mem_keys_dictInsert {l : List (Date × Row)} {k : Date} {v : Row} {x : Date}
    (h : x ∈ (dictInsert l k v).map Prod.fst) : x = k ∨ x ∈ l.map Prod.fst := by
  induction l with
  | nil => simpa [dictInsert] using h
  | cons p ps ih =>
    by_cases hpk : p.1 = k
    · simp only [dictInsert, if_pos hpk, List.map_cons, List.mem_cons] at h
      rcases h with h | h
      · exact Or.inl h
      · exact Or.inr (by simp [h])
    · simp only [dictInsert, if_neg hpk, List.map_cons, List.mem_cons] at h
      rcases h with h | h
      · exact Or.inr (by simp [h])
      · rcases ih h with h1 | h1
        · exact Or.inl h1
        · exact Or.inr (by simp [h1])

/-- Dict assignment keeps the keys distinct. -/
theorem keys_nodup_dictInsert {l : List (Date × Row)} {k : Date} {v : Row}
    (h : (l.map Prod.fst).Nodup) : ((dictInsert l k v).map Prod.fst).Nodup := by
  induction l with
  | nil => simp [dictInsert]
  | cons p ps ih =>
    simp only [List.map_cons, List.nodup_cons] at h
    obtain ⟨hnot, hps⟩ := h
    by_cases hpk : p.1 = k
    · simp only [dictInsert, if_pos hpk, List.map_cons, List.nodup_cons]
      exact ⟨hpk ▸ hnot, hps⟩
    · simp only [dictInsert, if_neg hpk, List.map_cons, List.nodup_cons]
      refine ⟨fun hm => ?_, ih hps⟩
      rcases mem_keys_dictInsert hm with h1 | h1
      · exact hpk h1
      · exact hnot h1

/-- The per-record invariant that `load_data` maintains: every stored record
is keyed by its own date, has at least one zone flag set, and carries a
non-empty holiday name. -/
def entriesOk (l : List (Date × Row)) : Prop :=
  ∀ k v, lookupDate l k = some v →
    v.date = k ∧ rowIsHoliday v = true ∧ v.nom_vacances.length ≠ 0

/-- Characterization of a successful `load_data` run: a date is a key of
the resulting dict exactly when it was one already or some input row for it
has a zone flag set; the per-record invariant and key distinctness are
preserved. -/
theorem load_data_ok (rows : List RawRow) :
    ∀ acc d, load_data rows acc = .ok d →
      (∀ k, (lookupDate d k).isSome = true ↔
        ((lookupDate acc k).isSome = true ∨
          ∃ r ∈ rows, r.date = k ∧ rawIsHoliday r = true)) ∧
      (entriesOk acc → entriesOk d) ∧
      ((acc.map Prod.fst).Nodup → (d.map Prod.fst).Nodup) := by
  induction rows with
  | nil =>
    intro acc d h
    simp only [load_data, Except.ok.injEq] at h
    subst h
    exact ⟨fun k => by simp, fun h => h, fun h => h⟩
  | cons r rs ih =>
    intro acc d h
    simp only [load_data] at h
    by_cases hhol : rowIsHoliday (parseRow r) = true
    · rw [if_pos hhol] at h
      by_cases hlen : (parseRow r).nom_vacances.length = 0
      · rw [if_pos hlen] at h
        exact absurd h (by simp)
      · rw [if_neg hlen] at h
        obtain ⟨hiff, hok, hnd⟩ := ih (dictInsert acc (parseRow r).date (parseRow r)) d h
        refine ⟨fun k => ?_, fun hacc => hok ?_, fun hacc => hnd (keys_nodup_dictInsert hacc)⟩
        · have h1 := hiff k
          rw [lookupDate_dictInsert] at h1
          have hr : rawIsHoliday r = true := hhol
          have hd : (parseRow r).date = r.date := rfl
          by_cases hk : r.date = k
          · simp only [h1, hd, hk, if_pos rfl, List.mem_cons]
            constructor
            · intro _; exact Or.inr ⟨r, Or.inl rfl, hk, hr⟩
            · intro _; exact Or.inl (by simp)
          · simp only [h1, hd, if_neg hk, List.mem_cons]
            constructor
            · rintro (h2 | ⟨b, hb, hbk, hbhol⟩)
              · exact Or.inl h2
              · exact Or.inr ⟨b, Or.inr hb, hbk, hbhol⟩
            · rintro (h2 | ⟨b, hb, hbk, hbhol⟩)
              · exact Or.inl h2
              · rcases hb with rfl | hb
                · exact absurd hbk hk
                · exact Or.inr ⟨b, hb, hbk, hbhol⟩
        · intro k v hkv
          rw [lookupDate_dictInsert] at hkv
          by_cases hk : (parseRow r).date = k
          · rw [if_pos hk] at hkv
            cases hkv
            exact ⟨hk, hhol, hlen⟩
          · rw [if_neg hk] at hkv
            exact hacc k v hkv
    · rw [if_neg hhol] at h
      obtain ⟨hiff, hok, hnd⟩ := ih acc d h
      refine ⟨fun k => ?_, hok, hnd⟩
      have hr : rawIsHoliday r = false := by
        simpa [rawIsHoliday] using hhol
      rw [hiff k]
      simp only [List.mem_cons]
      constructor
      · rintro (h2 | ⟨b, hb, hbk, hbhol⟩)
        · exact Or.inl h2
        · exact Or.inr ⟨b, Or.inr hb, hbk, hbhol⟩
      · rintro (h2 | ⟨b, hb, hbk, hbhol⟩)
        · exact Or.inl h2
        · rcases hb with rfl | hb
          · rw [hr] at hbhol; cases hbhol
          · exact Or.inr ⟨b, hb, hbk, hbhol⟩

/-- If some input row has a zone flag set but an empty name, `load_data`
raises `ValueError`, whatever the accumulated dict is. -/
theorem load_data_err (rows : List RawRow) :
    ∀ acc, (∃ r ∈ rows, rawIsHoliday r = true ∧ r.nom_vacances.length = 0) →
      ∃ m, load_data rows acc = .error (.valueError m) := by
  induction rows with
  | nil => intro acc h; simp at h
  | cons r rs ih =>
    intro acc h
    by_cases hhol : rowIsHoliday (parseRow r) = true
    · by_cases hlen : (parseRow r).nom_vacances.length = 0
      · exact ⟨"Holiday name not set for date: " ++ dateStr (parseRow r).date,
          by simp [load_data, hhol, hlen]⟩
      · rcases h with ⟨b, hb, hbhol, hblen⟩
        rcases List.mem_cons.mp hb with rfl | hbrs
        · exact absurd hblen hlen
        · rcases ih (dictInsert acc (parseRow r).date (parseRow r))
            ⟨b, hbrs, hbhol, hblen⟩ with ⟨m, hm⟩
          exact ⟨m, by simp [load_data, hhol, hlen, hm]⟩
    · rcases h with ⟨b, hb, hbhol, hblen⟩
      rcases List.mem_cons.mp hb with rfl | hbrs
      · exact absurd hbhol hhol
      · rcases ih acc ⟨b, hbrs, hbhol, hblen⟩ with ⟨m, hm⟩
        exact ⟨m, by simp [load_data, hhol, hm]⟩

/-- A successful construction is a successful `load_data` run from the
empty dict whose result is the stored index. -/
theorem mkCalendar_ok {rows : List RawRow} {c : Calendar}
    (h : mkCalendar rows = .ok c) : load_data rows [] = .ok c.data := by
  unfold mkCalendar at h
  cases hld : load_data rows [] with
  | error e =>
    rw [hld] at h
    simp [Bind.bind, Except.bind] at h
  | ok data =>
    rw [hld] at h
    simp only [Bind.bind, Except.bind] at h
    cases hmn : minKey (data.map Prod.fst) with
    | none =>
      rw [hmn] at h
      cases hmx : maxKey (data.map Prod.fst) <;> rw [hmx] at h <;> simp at h
    | some mn =>
      cases hmx : maxKey (data.map Prod.fst) with
      | none => rw [hmn, hmx] at h; simp at h
      | some mx =>
        rw [hmn, hmx] at h
        simp only [Except.ok.injEq] at h
        rw [← h]

/-- The index of a constructed calendar has distinct keys. -/
theorem mkCalendar_keys_nodup {rows : List RawRow} {c : Calendar}
    (h : mkCalendar rows = .ok c) : (c.data.map Prod.fst).Nodup :=
  (load_data_ok rows [] c.data (mkCalendar_ok h)).2.2 (by simp)

/-- The index of a constructed calendar satisfies the per-record invariant. -/
theorem mkCalendar_entriesOk {rows : List RawRow} {c : Calendar}
    (h : mkCalendar rows = .ok c) : entriesOk c.data :=
  (load_data_ok rows [] c.data (mkCalendar_ok h)).2.1
    (fun k v hkv => by simp [lookupDate] at hkv)

/-- Membership in the index of a constructed calendar. -/
theorem mkCalendar_mem_iff {rows : List RawRow} {c : Calendar}
    (h : mkCalendar rows = .ok c) (k : Date) :
    (lookupDate c.data k).isSome = true ↔
      ∃ r ∈ rows, r.date = k ∧ rawIsHoliday r = true := by
  have h1 := (load_data_ok rows [] c.data (mkCalendar_ok h)).1 k
  simpa [lookupDate] using h1

/-- C1: in every index produced by a successful construction, a record
exists for date `d` exactly when some input row for `d` has a zone flag
set; and every stored record has at least one zone flag true and a
non-empty `holiday_name`. Rows with all flags false are never stored. -/
theorem index_invariant (rows : List RawRow) (c : Calendar)
    (h : mkCalendar rows = .ok c) :
    (∀ d : Date, (lookupDate c.data d).isSome = true ↔
      ∃ r ∈ rows, r.date = d ∧ rawIsHoliday r = true) ∧
    (∀ d v, lookupDate c.data d = some v →
      rowIsHoliday v = true ∧ v.nom_vacances ≠ "") := by
  refine ⟨mkCalendar_mem_iff h, fun d v hv => ?_⟩
  obtain ⟨-, hhol, hlen⟩ := mkCalendar_entriesOk h d v hv
  refine ⟨hhol, fun hempty => hlen ?_⟩
  rw [hempty]
  rfl

/-- C1 witness: the invariant evaluated on the sample calendar at the
stored date 2022-12-23. -/
theorem index_invariant_witness :
    ((lookupDate sampleCal.data ⟨2022, 12, 23⟩).isSome = true ↔
      ∃ r ∈ sampleRows, r.date = ⟨2022, 12, 23⟩ ∧ rawIsHoliday r = true) ∧
    (rowIsHoliday ⟨⟨2022, 12, 23⟩, "Vacances de Noël", true, true, true⟩ = true ∧
      ("Vacances de Noël" : String) ≠ "") :=
  ⟨(index_invariant sampleRows sampleCal rfl).1 ⟨2022, 12, 23⟩,
   (index_invariant sampleRows sampleCal rfl).2 ⟨2022, 12, 23⟩
     ⟨⟨2022, 12, 23⟩, "Vacances de Noël", true, true, true⟩ rfl⟩

/-- C6: a row whose zone flags OR to true but whose holiday name is empty
makes construction fail fast with the load-time `ValueError` (the
`DataIntegrityError` kind); no calendar is produced. -/
theorem load_integrity_error (rows : List RawRow) (r : RawRow)
    (hmem : r ∈ rows) (hhol : rawIsHoliday r = true)
    (hname : r.nom_vacances.length = 0) :
    ∃ m, mkCalendar rows = .error (.valueError m) := by
  rcases load_data_err rows [] ⟨r, hmem, hhol, hname⟩ with ⟨m, hm⟩
  refine ⟨m, ?_⟩
  unfold mkCalendar
  rw [hm]
  rfl

/-- C6 witness: a single row flagged for zone A with an empty name aborts
construction with the integrity `ValueError`. -/
theorem load_integrity_error_witness :
    ∃ m, mkCalendar [⟨⟨2023, 1, 2⟩, "", "True", "False", "False"⟩] =
      .error (.valueError m) :=
  load_integrity_error [⟨⟨2023, 1, 2⟩, "", "True", "False", "False"⟩]
    ⟨⟨2023, 1, 2⟩, "", "True", "False", "False"⟩ (by simp) (by rfl) (by rfl)

/-- C2: `holidays_for_year` raises `UnsupportedYearException` exactly for
a year outside `[min_year, max_year]`, and otherwise returns precisely the
index entries whose date falls in that year. -/
theorem holidays_for_year_spec (c : Calendar) (y : Int) :
    ((y < c.min_year ∨ y > c.max_year) →
      holidays_for_year c y =
        .error (.unsupportedYear ("No data for year: " ++ toString y))) ∧
    (c.min_year ≤ y → y ≤ c.max_year →
      ∃ res, holidays_for_year c y = .ok res ∧
        ∀ p : Date × Row, p ∈ res ↔ p ∈ c.data ∧ p.1.year = y) := by
  constructor
  · intro hy
    simp [holidays_for_year, hy]
  · intro h1 h2
    have hy : ¬ (y < c.min_year ∨ y > c.max_year) := by omega
    refine ⟨c.data.filter (fun p => p.1.year == y), ?_, fun p => ?_⟩
    · simp [holidays_for_year, hy]
    · simp [List.mem_filter]

/-- C2 witness: year 2025 is rejected, year 2022 returns exactly the 2022
entries of the sample calendar. -/
theorem holidays_for_year_spec_witness :
    (holidays_for_year sampleCal 2025 =
      .error (.unsupportedYear ("No data for year: " ++ toString (2025 : Int)))) ∧
    ∃ res, holidays_for_year sampleCal 2022 = .ok res ∧
      ∀ p : Date × Row, p ∈ res ↔ p ∈ sampleCal.data ∧ p.1.year = 2022 :=
  ⟨(holidays_for_year_spec sampleCal 2025).1 (by decide),
   (holidays_for_year_spec sampleCal 2022).2 (by decide) (by decide)⟩

/-- C9: an unsupported holiday name makes `holiday_for_year_by_name` raise
`UnsupportedHolidayException` for every year — also out-of-range ones,
since `check_name` runs before `holidays_for_year`; for a supported name
and in-range year the result is exactly the year's entries whose
`nom_vacances` equals the name. -/
theorem holiday_by_name_spec (c : Calendar) (y : Int) (name : String) :
    (name ∉ SUPPORTED_HOLIDAY_NAMES →
      holiday_for_year_by_name c y name =
        .error (.unsupportedHoliday ("Unknown holiday name: " ++ name))) ∧
    (name ∈ SUPPORTED_HOLIDAY_NAMES → c.min_year ≤ y → y ≤ c.max_year →
      ∃ h res, holidays_for_year c y = .ok h ∧
        holiday_for_year_by_name c y name = .ok res ∧
        ∀ p : Date × Row, p ∈ res ↔ p ∈ h ∧ p.2.nom_vacances = name) := by
  constructor
  · intro hn
    simp [holiday_for_year_by_name, check_name, hn, Bind.bind, Except.bind]
  · intro hn h1 h2
    have hy : ¬ (y < c.min_year ∨ y > c.max_year) := by omega
    refine ⟨c.data.filter (fun p => p.1.year == y),
      (c.data.filter fun p => p.1.year == y).filter
        (fun p => p.2.nom_vacances == name), ?_, ?_, fun p => ?_⟩
    · simp [holidays_for_year, hy]
    · simp [holiday_for_year_by_name, check_name, hn, holidays_for_year, hy,
        Bind.bind, Except.bind, Pure.pure, Except.pure]
    · simp [List.mem_filter, and_assoc]
      tauto

/-- C9 witness: an unknown name is rejected with `UnsupportedHoliday` even
at the out-of-range year 1900; the supported Christmas name at 2022 filters
the year entries by name. -/
theorem holiday_by_name_spec_witness :
    (holiday_for_year_by_name sampleCal 1900 "Not A Real Holiday" =
      .error (.unsupportedHoliday
        ("Unknown holiday name: " ++ "Not A Real Holiday"))) ∧
    ∃ h res, holidays_for_year sampleCal 2022 = .ok h ∧
      holiday_for_year_by_name sampleCal 2022 "Vacances de Noël" = .ok res ∧
      ∀ p : Date × Row, p ∈ res ↔
        p ∈ h ∧ p.2.nom_vacances = "Vacances de Noël" :=
  ⟨(holiday_by_name_spec sampleCal 1900 "Not A Real Holiday").1 (by decide),
   (holiday_by_name_spec sampleCal 2022 "Vacances de Noël").2
     (by decide) (by decide) (by decide)⟩

/-- C10: for an in-range year with no indexed dates, the per-entry zone
filter of `holidays_for_year_and_zone` never runs, so any zone string —
also one outside the supported set — is silently accepted and the result
is the empty mapping. -/
theorem year_and_zone_empty (c : Calendar) (y : Int) (zone : String)
    (h1 : c.min_year ≤ y) (h2 : y ≤ c.max_year)
    (hempty : ∀ p ∈ c.data, (p : Date × Row).1.year ≠ y) :
    holidays_for_year_and_zone c y zone = .ok [] := by
  have hy : ¬ (y < c.min_year ∨ y > c.max_year) := by omega
  have hfil : c.data.filter (fun p => p.1.year == y) = [] := by
    rw [List.filter_eq_nil_iff]
    intro p hp
    simp [hempty p hp]
  simp [holidays_for_year_and_zone, holidays_for_year, hy, hfil,
    Bind.bind, Except.bind, filterZone, Pure.pure, Except.pure]

/-- C10 witness: the sample calendar has no 2023 entries, and the
unsupported zone string Z passes through without any error. -/
theorem year_and_zone_empty_witness :
    holidays_for_year_and_zone sampleCal 2023 "Z" = .ok [] :=
  year_and_zone_empty sampleCal 2023 "Z" (by decide) (by decide) (by decide)

/-- A sequence all of whose elements pass the scalar check passes the
sequence check. -/
theorem check_date_list_ok (c : Calendar) :
    ∀ ds : List DateInput, (∀ di ∈ ds, check_date_one c di = .ok ()) →
      check_date_list c ds = .ok ()
  | [], _ => rfl
  | d :: ds, h => by
    have hd := h d (List.mem_cons_self d ds)
    have ht := check_date_list_ok c ds (fun di hdi => h di (List.mem_cons_of_mem d hdi))
    simp [check_date_list, hd, ht, Bind.bind, Except.bind]

/-- A valid prefix is skipped and the first failure of the rest of the
sequence surfaces unchanged. -/
theorem check_date_list_append_err (c : Calendar) :
    ∀ (pre rest : List DateInput) (e : HolidayError),
      (∀ di ∈ pre, check_date_one c di = .ok ()) →
      check_date_list c rest = .error e →
      check_date_list c (pre ++ rest) = .error e
  | [], _, _, _, hrest => hrest
  | p :: ps, rest, e, hpre, hrest => by
    have hp := hpre p (List.mem_cons_self p ps)
    have ht := check_date_list_append_err c ps rest e
      (fun di hdi => hpre di (List.mem_cons_of_mem p hdi)) hrest
    simp [check_date_list, hp, ht, Bind.bind, Except.bind]

/-- C5: on a sequence whose elements all pass validation, `is_holiday`
returns a same-length boolean list whose i-th element is exactly what the
scalar `is_holiday` returns on the i-th input date. -/
theorem is_holiday_pointwise (c : Calendar) (ds : List DateInput)
    (h : ∀ di ∈ ds, check_date_one c di = .ok ()) :
    ∃ bs : List Bool, is_holiday c (.list ds) = .ok (.list bs) ∧
      bs.length = ds.length ∧
      ∀ (i : Nat) (hi : i < ds.length) (hb : i < bs.length),
        is_holiday c (.single (ds.get ⟨i, hi⟩)) =
          .ok (.single (bs.get ⟨i, hb⟩)) := by
  refine ⟨ds.map (holidayOf c), ?_, by simp, ?_⟩
  · simp [is_holiday, check_date, check_date_list_ok c ds h,
      Bind.bind, Except.bind, Pure.pure, Except.pure]
  · intro i hi hb
    have hone := h (ds[i]) (List.getElem_mem hi)
    simp [is_holiday, check_date, hone, Bind.bind, Except.bind,
      Pure.pure, Except.pure, List.getElem_map]

/-- C5 witness: the pointwise property evaluated on a two-element sequence
over the sample calendar. -/
theorem is_holiday_pointwise_witness :
    ∃ bs : List Bool,
      is_holiday sampleCal (.list [.date ⟨2022, 12, 23⟩, .date ⟨2023, 1, 2⟩]) =
        .ok (.list bs) ∧
      bs.length = [DateInput.date ⟨2022, 12, 23⟩, .date ⟨2023, 1, 2⟩].length ∧
      ∀ (i : Nat) (hi : i < [DateInput.date ⟨2022, 12, 23⟩, .date ⟨2023, 1, 2⟩].length)
        (hb : i < bs.length),
        is_holiday sampleCal
          (.single ([DateInput.date ⟨2022, 12, 23⟩, .date ⟨2023, 1, 2⟩].get ⟨i, hi⟩)) =
          .ok (.single (bs.get ⟨i, hb⟩)) :=
  is_holiday_pointwise sampleCal [.date ⟨2022, 12, 23⟩, .date ⟨2023, 1, 2⟩]
    (by intro di hdi
        rcases List.mem_cons.mp hdi with rfl | hdi
        · rfl
        · rcases List.mem_singleton.mp hdi with rfl
          rfl)

/-- C8: `check_date` on a sequence fails at the first invalid element, in
order: a valid prefix is accepted, the failing element determines the
error — `ValueError` for a non-date value, `UnsupportedYearException` for
an out-of-range year — and a sequence-form `is_holiday` call whose
validation fails returns that error and no partial result. -/
theorem check_date_first_failure (c : Calendar) (pre post : List DateInput)
    (bad : DateInput)
    (hpre : ∀ di ∈ pre, check_date_one c di = .ok ())
    (hbad : check_date_one c bad ≠ .ok ()) :
    ∃ e, check_date_one c bad = .error e ∧
      check_date_list c (pre ++ bad :: post) = .error e ∧
      is_holiday c (.list (pre ++ bad :: post)) = .error e ∧
      (bad = .other → e = .valueError dateTypeMsg) ∧
      (∀ d, bad = .date d → (d.year < c.min_year ∨ d.year > c.max_year) ∧
        e = .unsupportedYear ("No data for year: " ++ toString d.year)) := by
  obtain ⟨e, he⟩ : ∃ e, check_date_one c bad = .error e := by
    cases hcb : check_date_one c bad with
    | ok u => cases u; exact absurd hcb hbad
    | error e => exact ⟨e, rfl⟩
  have hcons : check_date_list c (bad :: post) = .error e := by
    simp [check_date_list, he, Bind.bind, Except.bind]
  have hlist := check_date_list_append_err c pre (bad :: post) e hpre hcons
  refine ⟨e, he, hlist, ?_, ?_, ?_⟩
  · simp [is_holiday, check_date, hlist, Bind.bind, Except.bind]
  · rintro rfl
    simp only [check_date_one, Except.error.injEq] at he
    exact he.symm
  · rintro d rfl
    by_cases hc2 : d.year < c.min_year ∨ d.year > c.max_year
    · refine ⟨hc2, ?_⟩
      simp only [check_date_one, if_pos hc2, Except.error.injEq] at he
      exact he.symm
    · simp [check_date_one, hc2] at he

/-- C8 witness: a sequence with a valid date, then a non-date value, then
another date fails with the `ValueError` of the non-date element and the
sequence-form `is_holiday` call yields no partial result. -/
theorem check_date_first_failure_witness :
    ∃ e, check_date_one sampleCal .other = .error e ∧
      check_date_list sampleCal
        ([.date ⟨2022, 12, 23⟩] ++ .other :: [.date ⟨2024, 2, 10⟩]) = .error e ∧
      is_holiday sampleCal
        (.list ([.date ⟨2022, 12, 23⟩] ++ .other :: [.date ⟨2024, 2, 10⟩])) =
        .error e ∧
      (DateInput.other = .other → e = .valueError dateTypeMsg) ∧
      (∀ d, DateInput.other = .date d →
        (d.year < sampleCal.min_year ∨ d.year > sampleCal.max_year) ∧
        e = .unsupportedYear ("No data for year: " ++ toString d.year)) :=
  check_date_first_failure sampleCal [.date ⟨2022, 12, 23⟩] [.date ⟨2024, 2, 10⟩]
    .other
    (by intro di hdi
        rcases List.mem_singleton.mp hdi with rfl
        rfl)
    (by intro hcontra
        simp [check_date_one] at hcontra)

/-- Unfolding of the strict date order into its lexicographic components. -/
theorem dateLt_iff {a b : Date} : dateLt a b = true ↔
    (a.year < b.year ∨ (a.year = b.year ∧
      (a.month < b.month ∨ (a.month = b.month ∧ a.day < b.day)))) := by
  simp [dateLt]

/-- Unfolding of the non-strict date order. -/
theorem dateLe_iff {a b : Date} : dateLe a b = true ↔
    (dateLt a b = true ∨ a = b) := by
  simp [dateLe]

/-- The strict date order is asymmetric. -/
theorem dateLt_asymm {a b : Date} (h1 : dateLt a b = true)
    (h2 : dateLt b a = true) : False := by
  rw [dateLt_iff] at h1 h2
  omega

/-- The strict date order is irreflexive. -/
theorem dateLt_irrefl (a : Date) : ¬ dateLt a a = true :=
  fun h => dateLt_asymm h h

/-- The non-strict date order is antisymmetric. -/
theorem dateLe_antisymm {a b : Date} (h1 : dateLe a b = true)
    (h2 : dateLe b a = true) : a = b := by
  rcases dateLe_iff.mp h1 with hlt1 | heq
  · rcases dateLe_iff.mp h2 with hlt2 | heq
    · exact (dateLt_asymm hlt1 hlt2).elim
    · exact heq.symm
  · exact heq

/-- No date lies in an inverted inclusive range. -/
theorem not_between_of_gt {s e k : Date} (hgt : dateLt e s = true)
    (h1 : dateLe s k = true) (h2 : dateLe k e = true) : False := by
  rcases dateLe_iff.mp h1 with hlt1 | heq1
  · rcases dateLe_iff.mp h2 with hlt2 | heq2
    · rw [dateLt_iff] at hlt1 hlt2 hgt
      omega
    · exact dateLt_asymm hlt1 (heq2 ▸ hgt)
  · rcases dateLe_iff.mp h2 with hlt2 | heq2
    · exact dateLt_asymm hlt2 (heq1 ▸ hgt)
    · have hse : s = e := heq1.trans heq2
      rw [hse] at hgt
      exact dateLt_irrefl e hgt

/-- A degenerate-range filter over a dict with distinct keys keeps at most
one entry. -/
theorem filter_between_self_len {l : List (Date × Row)} {s : Date}
    (hnd : (l.map Prod.fst).Nodup) :
    (l.filter fun p => dateLe s p.1 && dateLe p.1 s).length ≤ 1 := by
  induction l with
  | nil => simp
  | cons p ps ih =>
    simp only [List.map_cons, List.nodup_cons] at hnd
    obtain ⟨hnot, hps⟩ := hnd
    by_cases hp : (dateLe s p.1 && dateLe p.1 s) = true
    · have hps1 : p.1 = s := by
        rw [Bool.and_eq_true] at hp
        exact dateLe_antisymm hp.2 hp.1
      have htail : ps.filter (fun q => dateLe s q.1 && dateLe q.1 s) = [] := by
        rw [List.filter_eq_nil_iff]
        intro q hq hq2
        rw [Bool.and_eq_true] at hq2
        have hqs : q.1 = s := dateLe_antisymm hq2.2 hq2.1
        have hmem : q.1 ∈ ps.map Prod.fst := List.mem_map_of_mem Prod.fst hq
        rw [hqs, ← hps1] at hmem
        exact hnot hmem
      simp [List.filter_cons, hp, htail]
    · simp only [List.filter_cons, if_neg hp]
      exact ih hps

/-- C3: for bounds whose years are in range, `holidays_between` returns
exactly the index entries in the inclusive range `[start, end]`; an
inverted range yields the empty result, and equal bounds select at most
the one record stored for that date. -/
theorem holidays_between_spec (rows : List RawRow) (c : Calendar) (s e : Date)
    (hc : mkCalendar rows = .ok c)
    (hs1 : c.min_year ≤ s.year) (hs2 : s.year ≤ c.max_year)
    (he1 : c.min_year ≤ e.year) (he2 : e.year ≤ c.max_year) :
    ∃ res, holidays_between c s e = .ok res ∧
      (∀ p : Date × Row, p ∈ res ↔
        p ∈ c.data ∧ dateLe s p.1 = true ∧ dateLe p.1 e = true) ∧
      (dateLt e s = true → res = []) ∧
      (s = e → res.length ≤ 1) := by
  have hys : ¬ (s.year < c.min_year ∨ s.year > c.max_year) := by omega
  have hye : ¬ (e.year < c.min_year ∨ e.year > c.max_year) := by omega
  refine ⟨c.data.filter (fun p => dateLe s p.1 && dateLe p.1 e),
    ?_, fun p => ?_, ?_, ?_⟩
  · simp [holidays_between, check_date_one, hys, hye, Bind.bind, Except.bind,
      Pure.pure, Except.pure]
  · simp [List.mem_filter, Bool.and_eq_true, and_assoc]
  · intro hgt
    rw [List.filter_eq_nil_iff]
    intro p hp hpred
    rw [Bool.and_eq_true] at hpred
    exact not_between_of_gt hgt hpred.1 hpred.2
  · rintro rfl
    exact filter_between_self_len (mkCalendar_keys_nodup hc)

/-- C3 witness: the full-range query over the sample calendar. -/
theorem holidays_between_spec_witness :
    ∃ res, holidays_between sampleCal ⟨2022, 1, 1⟩ ⟨2024, 12, 31⟩ = .ok res ∧
      (∀ p : Date × Row, p ∈ res ↔ p ∈ sampleCal.data ∧
        dateLe ⟨2022, 1, 1⟩ p.1 = true ∧ dateLe p.1 ⟨2024, 12, 31⟩ = true) ∧
      (dateLt ⟨2024, 12, 31⟩ ⟨2022, 1, 1⟩ = true → res = []) ∧
      ((⟨2022, 1, 1⟩ : Date) = ⟨2024, 12, 31⟩ → res.length ≤ 1) :=
  holidays_between_spec sampleRows sampleCal ⟨2022, 1, 1⟩ ⟨2024, 12, 31⟩
    rfl (by decide) (by decide) (by decide) (by decide)

/-- C7 counterexample: the lowercase identifier a is rejected by
`zone_key`, so zone identifiers are not accepted case-insensitively. -/
theorem zone_key_case_counterexample :
    zone_key "a" = .error (.unsupportedZone "Unsupported zone: a") := rfl

/-- C7 amended: `zone_key` is case-sensitive — it succeeds exactly on the
literal members of the supported set, returning the lowercased field key,
and raises `UnsupportedZoneException` on everything else, including other
letter cases of the supported zones. -/
theorem zone_key_spec (zone : String) :
    (zone ∈ SUPPORTED_ZONES →
      zone_key zone = .ok ("vacances_zone_" ++ zone.toLower)) ∧
    (zone ∉ SUPPORTED_ZONES →
      zone_key zone = .error (.unsupportedZone ("Unsupported zone: " ++ zone))) := by
  constructor
  · intro h
    simp [zone_key, h]
  · intro h
    simp [zone_key, h]

/-- C7 amended witness: B is accepted, its lowercase form b is rejected. -/
theorem zone_key_spec_witness :
    (zone_key "B" = .ok ("vacances_zone_" ++ "B".toLower)) ∧
    (zone_key "b" = .error (.unsupportedZone ("Unsupported zone: " ++ "b"))) :=
  ⟨(zone_key_spec "B").1 (by decide), (zone_key_spec "b").2 (by decide)⟩

/-- C4 counterexample: for the in-range date 2023-01-02, which is absent
from the sample index, the unsupported zone Z does not raise — the call
returns false because `zone_key` is only reached when the date is found. -/
theorem is_holiday_for_zone_absent_counterexample :
    is_holiday_for_zone sampleCal ⟨2023, 1, 2⟩ "Z" = .ok false := rfl

/-- C4 amended: for a single in-range date and a zone outside the
supported set, `is_holiday_for_zone` raises `UnsupportedZoneException`
when the date is present in the index, but returns false without ever
validating the zone when the date is absent. -/
theorem is_holiday_for_zone_unsupported (c : Calendar) (d : Date) (zone : String)
    (h1 : c.min_year ≤ d.year) (h2 : d.year ≤ c.max_year)
    (hz : zone ∉ SUPPORTED_ZONES) :
    (∀ row, lookupDate c.data d = some row →
      is_holiday_for_zone c d zone =
        .error (.unsupportedZone ("Unsupported zone: " ++ zone))) ∧
    (lookupDate c.data d = none →
      is_holiday_for_zone c d zone = .ok false) := by
  have hy : ¬ (d.year < c.min_year ∨ d.year > c.max_year) := by omega
  constructor
  · intro row hrow
    simp [is_holiday_for_zone, check_date_one, hy, hrow, zone_key, hz,
      Bind.bind, Except.bind]
  · intro hnone
    simp [is_holiday_for_zone, check_date_one, hy, hnone,
      Bind.bind, Except.bind, Pure.pure, Except.pure]

/-- C4 amended witness: the stored date 2022-12-23 with zone Z raises
`UnsupportedZoneException` on the sample calendar. -/
theorem is_holiday_for_zone_unsupported_witness :
    is_holiday_for_zone sampleCal ⟨2022, 12, 23⟩ "Z" =
      .error (.unsupportedZone ("Unsupported zone: " ++ "Z")) :=
  (is_holiday_for_zone_unsupported sampleCal ⟨2022, 12, 23⟩ "Z"
    (by decide) (by decide) (by decide)).1
    ⟨⟨2022, 12, 23⟩, "Vacances de Noël", true, true, true⟩ rfl

end VacancesScolaires
